import Mathlib

/-!
Verification development for the Disbot moderation engine.

The definitions below are a shallow embedding of the violation-escalation
and temporal-sanction core of the repository: `cogs/moderation.py`
(violation ledger, tier computation, punishment table, ban command,
temp-sanction sweep, JSON persistence) and `cogs/automod.py` (rule
detector, spam window, per-guild action cooldown, atomic whitelist/config
persistence).  Instants and durations are modelled as integers counting
microseconds, matching the resolution of Python `datetime` arithmetic.
-/

namespace Disbot

/-- One microsecond-denominated second; instants and durations throughout
are plain integers in microseconds (`datetime` resolution). -/
def oneSecond : Int := 1000000

/-- Value of `timedelta(days=30)` in microseconds, the retention window used by
`handle_violation` and the `violations` command. -/
def thirtyDays : Int := 30 * 86400 * 1000000

/-- One entry of `violation_tracker[guild_id][user_id]`
(moderation.py lines 320-324): type, severity and timestamp. -/
structure ViolationRecord where
  vtype : String
  severity : Int
  timestamp : Int
deriving DecidableEq

/-- The `recent_violations` list comprehension of `handle_violation`
(moderation.py lines 327-330): records with
`now - timestamp < timedelta(days=30)` (strict). -/
def recentViolations (ledger : List ViolationRecord) (now : Int) :
    List ViolationRecord :=
  ledger.filter (fun v => now - v.timestamp < thirtyDays)

/-- Tier computation `tier = min(5, len(recent_violations))` (moderation.py line 332). -/
def tierFor (ledger : List ViolationRecord) (now : Int) : Nat :=
  min 5 (recentViolations ledger now).length

/-- C1: recording N violations whose timestamps all lie inside the 30-day
window yields tier `min 5 N`, independent of types and order, and a record
that is 30 days old or older contributes nothing: deleting it from the
ledger leaves the tier unchanged. -/
theorem handle_violation_tier_min5
    : (∀ (ledger : List ViolationRecord) (now : Int),
        (∀ v ∈ ledger, now - v.timestamp < thirtyDays) →
        tierFor ledger now = min 5 ledger.length)
    ∧ (∀ (l₁ l₂ : List ViolationRecord) (v : ViolationRecord) (now : Int),
        thirtyDays ≤ now - v.timestamp →
        tierFor (l₁ ++ v :: l₂) now = tierFor (l₁ ++ l₂) now)
    ∧ (∀ (l l' : List ViolationRecord) (now : Int),
        l.Perm l' → tierFor l now = tierFor l' now) := by
  refine ⟨?_, ?_, ?_⟩
  · intro ledger now h
    unfold tierFor recentViolations
    rw [List.filter_eq_self.mpr]
    intro v hv
    exact decide_eq_true (h v hv)
  · intro l₁ l₂ v now h
    unfold tierFor recentViolations
    rw [List.filter_append, List.filter_append, List.filter_cons_of_neg]
    simp only [decide_eq_true_eq, not_lt]
    exact h
  · intro l l' now h
    unfold tierFor recentViolations
    rw [(h.filter _).length_eq]

/-- Witness for C1 at a concrete two-record ledger. -/
theorem handle_violation_tier_min5_witness :
    tierFor [⟨"spam", 2, 100⟩, ⟨"excessive_caps", 1, 50⟩] 200 = min 5 2 :=
  handle_violation_tier_min5.1 _ 200 (by decide)

/-- Punishment kinds appearing in `self.punishment_tiers`
(moderation.py lines 167-173). -/
inductive PunishKind
  | warn
  | timeout
  | ban
deriving DecidableEq

/-- One entry of the `punishment_tiers` dict: an action and an optional
duration in microseconds. -/
structure PunishmentSpec where
  action : PunishKind
  duration : Option Int
deriving DecidableEq

/-- The `punishment_tiers` dict (moderation.py lines 167-173); keys other
than 1-5 are absent. -/
def punishmentTiers : Nat → Option PunishmentSpec
  | 1 => some ⟨.warn, none⟩
  | 2 => some ⟨.timeout, some (30 * 60 * 1000000)⟩
  | 3 => some ⟨.timeout, some (2 * 3600 * 1000000)⟩
  | 4 => some ⟨.timeout, some (86400 * 1000000)⟩
  | 5 => some ⟨.ban, none⟩
  | _ => none

/-- The `severity` argument of `handle_violation` as a Python value: either
an `int` or a value of some other type (the `isinstance(severity, int)`
test at moderation.py line 317 distinguishes exactly these). -/
inductive SeverityInput
  | int (n : Int)
  | nonInt
deriving DecidableEq

/-- The severity validation at moderation.py lines 317-318:
`if not isinstance(severity, int) or severity < 1 or severity > 5:
severity = 1`. -/
def clampSeverity : SeverityInput → Int
  | .int n => if n < 1 ∨ 5 < n then 1 else n
  | .nonInt => 1

/-- The ledger core of `handle_violation` (moderation.py lines 311-333):
validate severity, append the record with the current timestamp, compute
the tier over the 30-day window of the updated ledger, and look up the
punishment. Returns (updated ledger, tier, punishment). -/
def handleViolation (ledger : List ViolationRecord) (vtype : String)
    (sev : SeverityInput) (now : Int) :
    List ViolationRecord × Nat × Option PunishmentSpec :=
  let ledger' := ledger ++ [⟨vtype, clampSeverity sev, now⟩]
  let tier := tierFor ledger' now
  (ledger', tier, punishmentTiers tier)

/-- Appending one record never shrinks the active-violation count. -/
theorem recentViolations_append_le (l : List ViolationRecord)
    (v : ViolationRecord) (now : Int) :
    (recentViolations l now).length ≤ (recentViolations (l ++ [v]) now).length := by
  unfold recentViolations
  rw [List.filter_append, List.length_append]
  exact Nat.le_add_right _ _

/-- C8: the tier-to-punishment table is exactly warn / 30-minute timeout /
2-hour timeout / 1-day timeout / ban, and once a user's tier is 5 a
further violation recorded by `handle_violation` still yields tier 5;
tiers never exceed 5. -/
theorem punishment_tiers_mapping :
    punishmentTiers 1 = some ⟨.warn, none⟩
  ∧ punishmentTiers 2 = some ⟨.timeout, some (30 * 60 * 1000000)⟩
  ∧ punishmentTiers 3 = some ⟨.timeout, some (2 * 3600 * 1000000)⟩
  ∧ punishmentTiers 4 = some ⟨.timeout, some (86400 * 1000000)⟩
  ∧ punishmentTiers 5 = some ⟨.ban, none⟩
  ∧ (∀ (ledger : List ViolationRecord) (now : Int) (vtype : String)
        (sev : SeverityInput), tierFor ledger now = 5 →
        (handleViolation ledger vtype sev now).2.1 = 5)
  ∧ (∀ (ledger : List ViolationRecord) (now : Int), tierFor ledger now ≤ 5) := by
  refine ⟨rfl, rfl, rfl, rfl, rfl, ?_, ?_⟩
  · intro ledger now vtype sev h
    have hle := recentViolations_append_le ledger
      ⟨vtype, clampSeverity sev, now⟩ now
    show min 5 (recentViolations
      (ledger ++ [⟨vtype, clampSeverity sev, now⟩]) now).length = 5
    unfold tierFor at h
    omega
  · intro ledger now
    exact Nat.min_le_left _ _

/-- Witness for C8: a ledger of five active violations is at tier 5, and a
sixth violation still yields tier 5. -/
theorem punishment_tiers_mapping_witness :
    (handleViolation (List.replicate 5 ⟨"spam", 2, 0⟩) ("spam")
      (.int 2) 0).2.1 = 5 :=
  punishment_tiers_mapping.2.2.2.2.2.1 _ 0 _ _ (by decide)

/-- C9: an integer severity in [1,5] is stored unchanged; an integer
outside [1,5] or a non-integer value is stored as severity 1; in every
case `handle_violation` appends the record (the call is total — it is not
rejected on bad severity). -/
theorem record_violation_severity_clamp :
    (∀ n : Int, 1 ≤ n → n ≤ 5 → clampSeverity (.int n) = n)
  ∧ (∀ n : Int, n < 1 ∨ 5 < n → clampSeverity (.int n) = 1)
  ∧ clampSeverity .nonInt = 1
  ∧ (∀ (ledger : List ViolationRecord) (vtype : String)
        (sev : SeverityInput) (now : Int),
        (handleViolation ledger vtype sev now).1
          = ledger ++ [⟨vtype, clampSeverity sev, now⟩]) := by
  refine ⟨?_, ?_, rfl, ?_⟩
  · intro n h1 h5
    show (if n < 1 ∨ 5 < n then 1 else n) = n
    rw [if_neg]
    omega
  · intro n h
    show (if n < 1 ∨ 5 < n then 1 else n) = 1
    rw [if_pos h]
  · intro ledger vtype sev now
    rfl

/-- Witness for C9: severity 3 is kept, severity 7 becomes 1. -/
theorem record_violation_severity_clamp_witness :
    clampSeverity (.int 3) = 3 ∧ clampSeverity (.int 7) = 1 :=
  ⟨record_violation_severity_clamp.1 3 (by norm_num) (by norm_num),
   record_violation_severity_clamp.2.1 7 (Or.inr (by norm_num))⟩

/-- Per-guild automod configuration (automod.py lines 156-166); the caps
threshold is the exact rational value of the comparison (the default 0.7
is handled exactly, see `defaultAutomodConfig`). -/
structure GuildConfig where
  maxMentions : Nat
  maxMessages : Nat
  timeframe : Nat
  blockedWords : List String
  linkWhitelist : List String
  maxLines : Nat
  maxEmojis : Nat
  capsThreshold : ℚ

/-- The default configuration created by `get_guild_config`
(automod.py lines 157-166). -/
def defaultAutomodConfig : GuildConfig :=
  ⟨5, 5, 5, [], [], 10, 10, 7 / 10⟩

/-- Derived features of one inbound message, as computed by `on_message`
(automod.py lines 273-295): `length` is `len(message.content)`,
`upperCount` is `sum(1 for c in message.content if c.isupper())`,
`mentionCount` is `len(message.mentions)`, `lineCount` is
`len(message.content.splitlines())`, `emojiCount` is the emoji-regex
match count, and `hasBlockedWord` is
`any(word.lower() in content_lower for word in config["blocked_words"])`. -/
structure MessageFeatures where
  length : Nat
  upperCount : Nat
  mentionCount : Nat
  lineCount : Nat
  emojiCount : Nat
  hasBlockedWord : Bool

/-- Caps check condition (automod.py lines 274-276): only evaluated when
the content is longer than 10 characters, and fires when the uppercase
ratio exceeds the threshold. -/
def capsFlag (cfg : GuildConfig) (m : MessageFeatures) : Bool :=
  decide (10 < m.length) &&
    decide (cfg.capsThreshold < (m.upperCount : ℚ) / (m.length : ℚ))

/-- Mention-spam condition (automod.py line 280). -/
def mentionFlag (cfg : GuildConfig) (m : MessageFeatures) : Bool :=
  decide (cfg.maxMentions < m.mentionCount)

/-- Line-spam condition (automod.py line 284). -/
def lineFlag (cfg : GuildConfig) (m : MessageFeatures) : Bool :=
  decide (cfg.maxLines < m.lineCount)

/-- Emoji-spam condition (automod.py lines 288-289). -/
def emojiFlag (cfg : GuildConfig) (m : MessageFeatures) : Bool :=
  decide (cfg.maxEmojis < m.emojiCount)

/-- The `violations` list built by `on_message` (automod.py lines
254-295), given the outcome of each check, in the order the source
appends them: spam, caps, mentions, lines, emojis, blocked words. -/
def findingsFromFlags (spam caps mentions lines emojis blocked : Bool) :
    List (String × Int) :=
  (if spam then [(("spam" : String), (2 : Int))] else []) ++
  (if caps then [("excessive_caps", 1)] else []) ++
  (if mentions then [("mention_spam", 2)] else []) ++
  (if lines then [("line_spam", 1)] else []) ++
  (if emojis then [("emoji_spam", 1)] else []) ++
  (if blocked then [("blocked_words", 3)] else [])

/-- The full detection pass for one processed message, with the spam
window outcome supplied by the stateful spam check. -/
def detectFindings (spamViolation : Bool) (cfg : GuildConfig)
    (m : MessageFeatures) : List (String × Int) :=
  findingsFromFlags spamViolation (capsFlag cfg m) (mentionFlag cfg m)
    (lineFlag cfg m) (emojiFlag cfg m) m.hasBlockedWord

/-- Selection `max(violations, key=lambda x: x[1])` (automod.py line 311): Python
`max` keeps the earlier element on ties, replacing only on a strictly
greater key. -/
def maxBySeverity : List (String × Int) → Option (String × Int)
  | [] => none
  | x :: xs => some (xs.foldl (fun best y => if best.2 < y.2 then y else best) x)

/-- Selection described positionally: the first finding in the list whose
severity is greater than or equal to every finding's severity. -/
def firstMaxBySeverity (l : List (String × Int)) : Option (String × Int) :=
  l.find? (fun g => l.all (fun h => decide (h.2 ≤ g.2)))

/-- The fold of `maxBySeverity` agrees with first-maximum selection on
every findings list the detector can produce (finite check over the six
check outcomes). -/
theorem maxBySeverity_findings_eq_firstMax (b₁ b₂ b₃ b₄ b₅ b₆ : Bool) :
    maxBySeverity (findingsFromFlags b₁ b₂ b₃ b₄ b₅ b₆)
      = firstMaxBySeverity (findingsFromFlags b₁ b₂ b₃ b₄ b₅ b₆) := by
  revert b₁ b₂ b₃ b₄ b₅ b₆
  decide

/-- C2 counterexample: a 54-character message of 44 uppercase letters and
11 lines (no mentions, no emojis, no blocked word) triggers exactly
`excessive_caps` and `line_spam`, both severity 1, and the code acts on
`excessive_caps` — not on `line_spam` as the claim's tie-break order
(spam > mentions > lines > emojis > caps) predicts. -/
theorem automod_tie_break_counterexample :
    detectFindings false defaultAutomodConfig ⟨54, 44, 0, 11, 0, false⟩
      = [("excessive_caps", 1), ("line_spam", 1)]
  ∧ maxBySeverity
      (detectFindings false defaultAutomodConfig ⟨54, 44, 0, 11, 0, false⟩)
      = some ("excessive_caps", 1)
  ∧ maxBySeverity
      (detectFindings false defaultAutomodConfig ⟨54, 44, 0, 11, 0, false⟩)
      ≠ some ("line_spam", 1) := by
  have hc : capsFlag defaultAutomodConfig ⟨54, 44, 0, 11, 0, false⟩ = true := by
    simp only [capsFlag, defaultAutomodConfig]
    norm_num
  have hrest : detectFindings false defaultAutomodConfig
      ⟨54, 44, 0, 11, 0, false⟩ = [("excessive_caps", 1), ("line_spam", 1)] := by
    unfold detectFindings
    rw [hc]
    decide
  refine ⟨hrest, ?_, ?_⟩ <;> rw [hrest] <;> decide

/-- C2 amended: the finding acted upon always has maximal severity, with
ties broken by the order in which the source appends the checks —
spam, then caps, then mentions, then lines, then emojis, then blocked
words (caps is checked second, not last). -/
theorem automod_acts_on_first_max_severity (spamV : Bool)
    (cfg : GuildConfig) (m : MessageFeatures) :
    maxBySeverity (detectFindings spamV cfg m)
      = firstMaxBySeverity (detectFindings spamV cfg m) :=
  maxBySeverity_findings_eq_firstMax spamV (capsFlag cfg m)
    (mentionFlag cfg m) (lineFlag cfg m) (emojiFlag cfg m) m.hasBlockedWord

/-- The timeframe of the sliding spam window, in microseconds
(`timedelta(seconds=config["timeframe"])`, automod.py line 266). -/
def timeframeMicros (cfg : GuildConfig) : Int := (cfg.timeframe : Int) * 1000000

/-- The mutable state touched by a single user's path through
`on_message`: `spam_check[author_id]` and the per-guild
`action_cooldowns` entry. -/
structure SpamState where
  window : List Int
  cooldown : Option Int

/-- Rate limiter `can_perform_action` (automod.py lines 182-190): refuse when the last
recorded action is less than one second old, otherwise record `now` and
allow. Returns (allowed, updated cooldown entry). -/
def canPerformAction (cd : Option Int) (now : Int) : Bool × Option Int :=
  match cd with
  | some t => if now - t < oneSecond then (false, some t) else (true, some now)
  | none => (true, some now)

/-- The stateful spam check (automod.py lines 259-271): drop window
entries older than the timeframe, append the current timestamp, and flag
a violation when the window now holds more than `max_messages` entries. -/
def updateSpamWindow (cfg : GuildConfig) (w : List Int) (now : Int) :
    List Int × Bool :=
  let w' := (w.filter (fun t => decide (now - t < timeframeMicros cfg))) ++ [now]
  (w', decide (cfg.maxMessages < w'.length))

/-- One message through the `on_message` spam path for a non-bot,
non-whitelisted author with bot permissions present: the rate-limit check
runs first (automod.py line 242) and a refused message is dropped before
the spam window is touched; an allowed message updates the window. -/
def processMessage (cfg : GuildConfig) (s : SpamState) (now : Int) :
    SpamState × Bool :=
  match canPerformAction s.cooldown now with
  | (false, cd) => (⟨s.window, cd⟩, false)
  | (true, cd) =>
      let r := updateSpamWindow cfg s.window now
      (⟨r.1, cd⟩, r.2)

/-- A sequence of messages, returning the final state and the spam flag
produced for each message. -/
def processMessages (cfg : GuildConfig) (s : SpamState) :
    List Int → SpamState × List Bool
  | [] => (s, [])
  | t :: ts =>
      let r := processMessage cfg s t
      let rest := processMessages cfg r.1 ts
      (rest.1, r.2 :: rest.2)

/-- Reachability invariant of the spam state: window entries are
successive processed timestamps at least one second apart, all bounded by
the cooldown entry, and the window is empty while no action was ever
allowed. -/
def SpamInv (s : SpamState) : Prop :=
  s.window.Pairwise (fun a b => a + oneSecond ≤ b)
  ∧ (∀ t ∈ s.window, ∀ c, s.cooldown = some c → t ≤ c)
  ∧ (s.cooldown = none → s.window = [])

/-- A list whose entries sit in `[lo, hi]` and are pairwise at least one
second apart has at most `(hi - lo) / 1e6 + 1` entries. -/
theorem gapped_length_bound (l : List Int) (lo hi : Int)
    (hgap : l.Pairwise (fun a b => a + oneSecond ≤ b))
    (hmem : ∀ t ∈ l, lo ≤ t ∧ t ≤ hi) :
    l = [] ∨ ((l.length : Int) - 1) * oneSecond ≤ hi - lo := by
  induction l generalizing lo with
  | nil => exact Or.inl rfl
  | cons x rest ih =>
    right
    rcases List.pairwise_cons.mp hgap with ⟨hx, hrest⟩
    have hxm := hmem x (List.mem_cons_self x rest)
    rcases ih (x + oneSecond) hrest
        (fun t ht => ⟨hx t ht, (hmem t (List.mem_cons_of_mem x ht)).2⟩) with
      hnil | hbound
    · subst hnil
      simp only [List.length_cons, List.length_nil]
      simp only [oneSecond]
      omega
    · simp only [List.length_cons]
      simp only [oneSecond] at hbound ⊢
      omega

/-- The state invariant is preserved by every message, allowed or
refused, for any configuration. -/
theorem processMessage_inv (cfg : GuildConfig) (s : SpamState) (now : Int)
    (h : SpamInv s) : SpamInv (processMessage cfg s now).1 := by
  obtain ⟨w, cd⟩ := s
  obtain ⟨hgap, hbound, hnone⟩ := h
  cases cd with
  | none =>
    have hw : w = [] := hnone rfl
    subst hw
    refine ⟨List.pairwise_singleton _ _, ?_, ?_⟩
    · intro t ht c hc
      rcases List.mem_singleton.mp ht with rfl
      cases hc
      exact le_refl _
    · intro hc
      cases hc
  | some c =>
    by_cases hlt : now - c < oneSecond
    · have heq : processMessage cfg ⟨w, some c⟩ now = (⟨w, some c⟩, false) := by
        simp only [processMessage, canPerformAction, if_pos hlt]
      rw [heq]
      exact ⟨hgap, hbound, hnone⟩
    · have hcnow : c + oneSecond ≤ now := by
        have h1 := not_lt.mp hlt
        simp only [oneSecond] at h1 ⊢
        omega
      have heq : (processMessage cfg ⟨w, some c⟩ now).1
          = ⟨(w.filter (fun t => decide (now - t < timeframeMicros cfg))) ++ [now],
             some now⟩ := by
        simp only [processMessage, canPerformAction, if_neg hlt, updateSpamWindow]
      rw [heq]
      have hmemw : ∀ t ∈ w.filter (fun t => decide (now - t < timeframeMicros cfg)),
          t ≤ c := by
        intro t ht
        exact hbound t (List.mem_of_mem_filter ht) c rfl
      refine ⟨?_, ?_, ?_⟩
      · refine List.pairwise_append.mpr
          ⟨hgap.filter _, List.pairwise_singleton _ _, ?_⟩
        intro a ha b hb
        rcases List.mem_singleton.mp hb with rfl
        have h2 := hmemw a ha
        simp only [oneSecond] at hcnow ⊢
        omega
      · intro t ht c' hc'
        cases hc'
        rcases List.mem_append.mp ht with hta | htb
        · have h2 := hmemw t hta
          simp only [oneSecond] at hcnow
          omega
        · rcases List.mem_singleton.mp htb with rfl
          exact le_refl _
      · intro hc
        cases hc

/-- Under the default configuration no processed message can ever raise
the spam flag: allowed messages are at least one second apart, so at most
five timestamps fit strictly inside the five-second window. -/
theorem processMessage_flag_default (s : SpamState) (now : Int)
    (h : SpamInv s) :
    (processMessage defaultAutomodConfig s now).2 = false := by
  obtain ⟨w, cd⟩ := s
  obtain ⟨hgap, hbound, hnone⟩ := h
  cases cd with
  | none =>
    have hw : w = [] := hnone rfl
    subst hw
    rfl
  | some c =>
    by_cases hlt : now - c < oneSecond
    · have heq : processMessage defaultAutomodConfig ⟨w, some c⟩ now
          = (⟨w, some c⟩, false) := by
        simp only [processMessage, canPerformAction, if_pos hlt]
      rw [heq]
    · have hcnow : c + 1000000 ≤ now := by
        have h1 := not_lt.mp hlt
        simp only [oneSecond] at h1
        omega
      have heq : (processMessage defaultAutomodConfig ⟨w, some c⟩ now).2
          = decide (defaultAutomodConfig.maxMessages <
              ((w.filter (fun t =>
                decide (now - t < timeframeMicros defaultAutomodConfig))) ++
                [now]).length) := by
        simp only [processMessage, canPerformAction, if_neg hlt, updateSpamWindow]
      rw [heq]
      rw [decide_eq_false_iff_not]
      intro hgt
      set l := (w.filter (fun t =>
        decide (now - t < timeframeMicros defaultAutomodConfig))) ++ [now] with hl
      have hlen : 5 < l.length := hgt
      have hpair : l.Pairwise (fun a b => a + oneSecond ≤ b) := by
        refine List.pairwise_append.mpr
          ⟨hgap.filter _, List.pairwise_singleton _ _, ?_⟩
        intro a ha b hb
        rcases List.mem_singleton.mp hb with rfl
        have h2 := hbound a (List.mem_of_mem_filter ha) c rfl
        simp only [oneSecond]
        omega
      have htf : timeframeMicros defaultAutomodConfig = 5000000 := by
        simp [timeframeMicros, defaultAutomodConfig]
      have hmem : ∀ t ∈ l, now - 4999999 ≤ t ∧ t ≤ now := by
        intro t ht
        rcases List.mem_append.mp ht with hta | htb
        · have h1 : now - t < 5000000 := by
            have h3 := List.mem_filter.mp hta
            rw [htf] at h3
            exact of_decide_eq_true h3.2
          have h2 : t ≤ c := hbound t (List.mem_of_mem_filter hta) c rfl
          constructor <;> omega
        · rcases List.mem_singleton.mp htb with rfl
          constructor <;> omega
      rcases gapped_length_bound l (now - 4999999) now hpair hmem with hnil | hb
      · rw [hnil] at hlen
        simp at hlen
      · simp only [oneSecond] at hb
        omega

/-- Every flag in a processed sequence is false under the default
configuration, starting from any invariant-satisfying state. -/
theorem processMessages_flags_false (ts : List Int) :
    ∀ s : SpamState, SpamInv s →
      ((processMessages defaultAutomodConfig s ts).2.all (fun b => b == false))
        = true := by
  induction ts with
  | nil =>
    intro s _
    rfl
  | cons t ts ih =>
    intro s h
    simp only [processMessages, List.all_cons]
    rw [processMessage_flag_default s t h,
        ih _ (processMessage_inv defaultAutomodConfig s t h)]
    rfl

/-- C7: under the default guild configuration (maxMessages 5, timeframe
5 s) the spam finding is unreachable — the per-guild one-second action
cooldown keeps processed messages at least one second apart, so at most
five timestamps ever lie strictly inside the five-second window; in
particular six messages at seconds 0,1,2,3,4,5 (the closest spacing the
rate limiter lets through) produce no finding at all, contradicting the
claimed severity-2 spam finding on the sixth message. -/
theorem spam_finding_unreachable_default :
    (∀ ts : List Int,
      ((processMessages defaultAutomodConfig ⟨[], none⟩ ts).2.all
        (fun b => b == false)) = true)
  ∧ (processMessages defaultAutomodConfig ⟨[], none⟩
      [0, 1000000, 2000000, 3000000, 4000000, 5000000]).2
      = [false, false, false, false, false, false] := by
  constructor
  · intro ts
    refine processMessages_flags_false ts ⟨[], none⟩
      ⟨List.Pairwise.nil, ?_, fun _ => rfl⟩
    intro t ht
    exact absurd ht (List.not_mem_nil t)
  · rfl

/-- One record of `self.temp_roles` (created at moderation.py lines
487-492 for timed bans and 528-533 for temp roles): the dict key, the
`action` field, the guild id and the parsed expiry timestamp. -/
structure TempSanction where
  key : String
  action : String
  guildId : Nat
  expires : Int
deriving DecidableEq

/-- A reversal attempt issued by `check_temp_roles` against the
platform. -/
inductive ReversalOp
  | unban (guildId : Nat) (key : String)
  | removeRole (guildId : Nat) (key : String)
deriving DecidableEq

/-- The reversal attempts made for one expired record whose guild was
found (moderation.py lines 618-632): one unban for action `"ban"`, one
role removal for action `"role"`, nothing otherwise; the attempt's own
failure is caught and swallowed, so it does not influence control flow. -/
def reversalOps (r : TempSanction) : List ReversalOp :=
  if r.action = "ban" then [.unban r.guildId r.key]
  else if r.action = "role" then [.removeRole r.guildId r.key]
  else []

/-- One iteration of the `check_temp_roles` loop (moderation.py lines
609-638) over one record: not-yet-expired records are kept; an expired
record whose guild `self.bot.get_guild` cannot resolve hits `continue`
and is kept; an expired record with a reachable guild gets its reversal
attempted and is deleted regardless of the attempt's outcome. -/
def sweepStep (reach : Nat → Bool) (now : Int)
    (acc : List TempSanction × List ReversalOp) (r : TempSanction) :
    List TempSanction × List ReversalOp :=
  if r.expires ≤ now then
    if reach r.guildId then (acc.1, acc.2 ++ reversalOps r)
    else (acc.1 ++ [r], acc.2)
  else (acc.1 ++ [r], acc.2)

/-- The full scheduler tick: fold the loop body over the snapshot of
`self.temp_roles`, returning the surviving records and the reversal
attempts made. -/
def checkTempRoles (reach : Nat → Bool) (now : Int)
    (records : List TempSanction) : List TempSanction × List ReversalOp :=
  records.foldl (sweepStep reach now) ([], [])

/-- Records an expired sweep deletes: expiry reached and guild
reachable. -/
def sweptAway (reach : Nat → Bool) (now : Int) (r : TempSanction) : Bool :=
  decide (r.expires ≤ now) && reach r.guildId

/-- Fold characterization of the sweep with an arbitrary accumulator. -/
theorem checkTempRoles_foldl (reach : Nat → Bool) (now : Int) :
    ∀ (rs : List TempSanction) (acc : List TempSanction × List ReversalOp),
      rs.foldl (sweepStep reach now) acc
        = (acc.1 ++ rs.filter (fun r => !(sweptAway reach now r)),
           acc.2 ++ (rs.filter (sweptAway reach now)).flatMap reversalOps) := by
  intro rs
  induction rs with
  | nil =>
    intro acc
    simp
  | cons r rs ih =>
    intro acc
    rw [List.foldl_cons, ih]
    by_cases h1 : r.expires ≤ now
    · by_cases h2 : reach r.guildId = true
      · simp [sweepStep, sweptAway, h1, h2, List.filter_cons]
      · simp [sweepStep, sweptAway, h1, Bool.eq_false_iff.mpr h2,
          List.filter_cons]
    · simp [sweepStep, sweptAway, h1, List.filter_cons]

/-- C3 counterexample: an expired temporary ban whose guild is not
reachable at the tick survives the tick untouched — no reversal is
attempted and the record is not deleted, so it is retried at every
subsequent tick while the guild stays unreachable. -/
theorem expired_sanction_survives_unreachable_guild :
    (⟨"123", "ban", 42, 0⟩ : TempSanction).expires ≤ 10
  ∧ (checkTempRoles (fun _ => false) 10 [⟨"123", "ban", 42, 0⟩]).1
      = [⟨"123", "ban", 42, 0⟩]
  ∧ (checkTempRoles (fun _ => false) 10 [⟨"123", "ban", 42, 0⟩]).2 = [] := by
  refine ⟨by norm_num, rfl, rfl⟩

/-- C3 amended: a tick keeps exactly the records that are unexpired or
whose guild is unreachable, and performs exactly one batch of reversal
attempts — one per expired record with a reachable guild — deleting those
records in the same tick even when the reversal attempt fails (attempt
failures are swallowed and cannot prevent the deletion). -/
theorem expired_sanction_single_attempt_when_reachable
    (reach : Nat → Bool) (now : Int) (records : List TempSanction) :
    (checkTempRoles reach now records).1
      = records.filter (fun r => !(sweptAway reach now r))
  ∧ (checkTempRoles reach now records).2
      = (records.filter (sweptAway reach now)).flatMap reversalOps := by
  have h := checkTempRoles_foldl reach now records ([], [])
  unfold checkTempRoles
  rw [h]
  exact ⟨by simp, by simp⟩

/-- File-system operations performed by the persistence code: an in-place
`open(path, "w")` write, an `os.replace(src, dst)`, and an
`os.rename(src, dst)`. -/
inductive FsOp
  | write (path : String)
  | replace (src dst : String)
  | rename (src dst : String)
deriving DecidableEq

/-- The writes of `ModerationCog.save_data` (moderation.py lines
270-283): each of the four documents is dumped straight into its target
file via `open(f"data/{filename}", "w")`. -/
def moderationSaveOps : List FsOp :=
  [.write ("data/warnings.json"), .write ("data/temp_roles.json"),
   .write ("data/appeals.json"), .write ("data/violations.json")]

/-- The writes of `AutoModCog.save_data` (automod.py lines 61-77): dump
into a temporary file, then `os.replace` it over the target. -/
def automodSaveDataOps : List FsOp :=
  [.write ("data/role_whitelist_temp.json"),
   .replace ("data/role_whitelist_temp.json") ("data/role_whitelist.json")]

/-- The writes of `AutoModCog.save_guild_configs` (automod.py lines
135-148): dump into a temporary file, then `os.replace` it over the
target. -/
def automodSaveConfigOps : List FsOp :=
  [.write ("data/automod_config_temp.json"),
   .replace ("data/automod_config_temp.json") ("data/automod_config.json")]

/-- A save is atomic for a target file when the target is never opened
for an in-place write and is the destination of some `os.replace`. -/
def atomicallyReplaced (ops : List FsOp) (target : String) : Bool :=
  ops.all (fun op => !(op == .write target)) &&
    ops.any (fun op =>
      match op with
      | .replace _ dst => dst == target
      | _ => false)

/-- C4 counterexample: the moderation documents are not written via a
temporary file — `save_data` opens each target in place, so a crash
mid-dump can leave a partial document for warnings, temp sanctions,
appeals or violations. -/
theorem moderation_save_not_atomic :
    atomicallyReplaced moderationSaveOps ("data/warnings.json") = false
  ∧ atomicallyReplaced moderationSaveOps ("data/temp_roles.json") = false
  ∧ atomicallyReplaced moderationSaveOps ("data/appeals.json") = false
  ∧ atomicallyReplaced moderationSaveOps ("data/violations.json") = false
  ∧ FsOp.write ("data/violations.json") ∈ moderationSaveOps := by
  refine ⟨rfl, rfl, rfl, rfl, by decide⟩

/-- C4 amended: only the automod documents are saved atomically — the
role whitelist and the automod guild configuration are written to a
temporary file and `os.replace`d over the target — while the four
moderation documents are plain in-place overwrites. -/
theorem automod_saves_atomic_moderation_saves_not :
    atomicallyReplaced automodSaveDataOps ("data/role_whitelist.json") = true
  ∧ atomicallyReplaced automodSaveConfigOps ("data/automod_config.json") = true
  ∧ atomicallyReplaced moderationSaveOps ("data/warnings.json") = false
  ∧ atomicallyReplaced moderationSaveOps ("data/temp_roles.json") = false
  ∧ atomicallyReplaced moderationSaveOps ("data/appeals.json") = false
  ∧ atomicallyReplaced moderationSaveOps ("data/violations.json") = false := by
  refine ⟨rfl, rfl, rfl, rfl, rfl, rfl⟩

/-- Atomic units of one `handle_violation` call as scheduled by the
cooperative event loop: code between suspension points runs without
interleaving.  Lock operations get their own constructors so the lock
behaviour of a code path is visible in its step list. -/
inductive LedgerStep
  | acquireLock (key : String)
  | releaseLock (key : String)
  | append (user : String) (rec : ViolationRecord)
  | platformCall
  | save
deriving DecidableEq

/-- The step sequence of one `handle_violation` call for user `u`
(moderation.py lines 297-403): the permission checks, dict
initialization, severity validation, in-place ledger append and tier
computation all run synchronously before the first true suspension point
(the awaited platform call at lines 353/358; the awaited helpers before
the append contain no awaits of their own and do not yield), and
`save_data` follows the platform call.  The function acquires no lock. -/
def handleViolationSteps (u : String) (rec : ViolationRecord) :
    List LedgerStep :=
  [.append u rec, .platformCall, .save]

/-- Effect of one step on the per-user ledger map
(`violation_tracker[guild_id]`). -/
def execStep (s : String → List ViolationRecord) :
    LedgerStep → (String → List ViolationRecord)
  | .append u rec => fun x => if x = u then s x ++ [rec] else s x
  | _ => s

/-- Run a schedule of steps against a ledger map. -/
def runSteps (s : String → List ViolationRecord) (steps : List LedgerStep) :
    String → List ViolationRecord :=
  steps.foldl execStep s

/-- Step that appends to user `u`'s ledger. -/
def isAppendTo (u : String) : LedgerStep → Bool
  | .append v _ => v == u
  | _ => false

/-- Step that acquires a lock. -/
def isLockAcquire : LedgerStep → Bool
  | .acquireLock _ => true
  | _ => false

/-- All order-preserving merges of two step sequences: the schedules a
cooperative scheduler can produce for two in-flight calls. -/
def interleavings {α : Type} : List α → List α → List (List α)
  | [], ys => [ys]
  | xs, [] => [xs]
  | x :: xs, y :: ys =>
      (interleavings xs (y :: ys)).map (fun σ => x :: σ) ++
      (interleavings (x :: xs) ys).map (fun σ => y :: σ)
termination_by xs ys => xs.length + ys.length

/-- Every interleaving is a permutation of the two sequences
concatenated. -/
theorem interleavings_perm {α : Type} :
    ∀ (a b σ : List α), σ ∈ interleavings a b → σ.Perm (a ++ b) := by
  intro a
  induction a with
  | nil =>
    intro b σ hσ
    simp only [interleavings, List.mem_singleton] at hσ
    subst hσ
    exact List.Perm.refl _
  | cons x xs ihx =>
    intro b
    induction b with
    | nil =>
      intro σ hσ
      simp only [interleavings, List.mem_singleton] at hσ
      subst hσ
      simp
    | cons y ys ihy =>
      intro σ hσ
      simp only [interleavings, List.mem_append] at hσ
      rcases hσ with h | h
      · rcases List.mem_map.mp h with ⟨τ, hτ, rfl⟩
        exact List.Perm.cons x (ihx _ _ hτ)
      · rcases List.mem_map.mp h with ⟨τ, hτ, rfl⟩
        exact (List.Perm.cons y (ihy _ hτ)).trans List.perm_middle.symm

/-- The fully sequential schedule is one of the interleavings. -/
theorem append_mem_interleavings {α : Type} :
    ∀ (a b : List α), (a ++ b) ∈ interleavings a b := by
  intro a
  induction a with
  | nil =>
    intro b
    simp [interleavings]
  | cons x xs ih =>
    intro b
    cases b with
    | nil =>
      simp [interleavings]
    | cons y ys =>
      simp only [interleavings, List.mem_append, List.mem_map]
      left
      exact ⟨xs ++ y :: ys, ih (y :: ys), rfl⟩

/-- Running a schedule grows user `u`'s ledger by exactly the number of
append steps targeting `u`. -/
theorem runSteps_length (u : String) :
    ∀ (steps : List LedgerStep) (s : String → List ViolationRecord),
      (runSteps s steps u).length
        = (s u).length + steps.countP (isAppendTo u) := by
  intro steps
  induction steps with
  | nil =>
    intro s
    simp [runSteps]
  | cons st steps ih =>
    intro s
    have hstep : runSteps s (st :: steps) = runSteps (execStep s st) steps := rfl
    rw [hstep, ih, List.countP_cons]
    cases st with
    | append v rec =>
      by_cases hv : v = u
      · subst hv
        simp [execStep, isAppendTo]
        omega
      · have hvb : (v == u) = false := beq_eq_false_iff_ne.mpr hv
        simp [execStep, isAppendTo, hvb, Ne.symm hv]
    | acquireLock k => simp [execStep, isAppendTo]
    | releaseLock k => simp [execStep, isAppendTo]
    | platformCall => simp [execStep, isAppendTo]
    | save => simp [execStep, isAppendTo]

/-- C5 counterexample: the claimed mechanism is absent — the step
sequence of `handle_violation` contains no lock acquisition at all, so
the recording sequence (append, punish, persist) is not serialized under
a per-user lock. -/
theorem handle_violation_acquires_no_lock :
    (handleViolationSteps ("u") ⟨"spam", 2, 0⟩).countP isLockAcquire = 0 := rfl

/-- C5 amended: two interleaved `handle_violation` calls for the same
user still never lose an update — under every schedule the ledger ends
exactly two records longer — but the reason is that the in-place append
runs inside a single synchronous block between suspension points, not a
per-user lock. -/
theorem concurrent_recordings_never_lose_update
    (u : String) (r₁ r₂ : ViolationRecord)
    (s₀ : String → List ViolationRecord) (σ : List LedgerStep)
    (hσ : σ ∈ interleavings (handleViolationSteps u r₁)
            (handleViolationSteps u r₂)) :
    (runSteps s₀ σ u).length = (s₀ u).length + 2 := by
  have hperm := interleavings_perm _ _ σ hσ
  rw [runSteps_length]
  have hc : σ.countP (isAppendTo u) = 2 := by
    rw [hperm.countP_eq]
    simp [handleViolationSteps, isAppendTo, List.countP_cons, List.countP_append]
  rw [hc]

/-- Witness for C5 at the sequential schedule of two concrete calls. -/
theorem concurrent_recordings_never_lose_update_witness :
    (runSteps (fun _ => [])
      (handleViolationSteps ("u") ⟨"spam", 2, 0⟩ ++
        handleViolationSteps ("u") ⟨"mention_spam", 2, 1⟩) ("u")).length = 2 :=
  concurrent_recordings_never_lose_update ("u") ⟨"spam", 2, 0⟩
    ⟨"mention_spam", 2, 1⟩ (fun _ => []) _ (append_mem_interleavings _ _)

/-- Microsecond value of one unit suffix accepted by `parse_time`
(helpers.py lines 6-12). -/
def unitMicros : Char → Option Int
  | 's' => some 1000000
  | 'm' => some 60000000
  | 'h' => some 3600000000
  | 'd' => some 86400000000
  | 'w' => some 604800000000
  | _ => none

/-- Numeric value of a digit run. -/
def digitsToNat (ds : List Char) : Nat :=
  ds.foldl (fun acc c => acc * 10 + (c.toNat - 48)) 0

/-- Duration parser `parse_time` (helpers.py lines 4-19): lower-case the string, match
`(\d+)([smhdw])` at the start (greedy ASCII digit run followed by a unit
letter, trailing characters ignored), and build the corresponding
duration; no match raises `ValueError`, modelled as `none`. -/
def parseTime (s : String) : Option Int :=
  let cs := s.toList.map Char.toLower
  let digits := cs.takeWhile (fun c => c.isDigit)
  let rest := cs.dropWhile (fun c => c.isDigit)
  match digits, rest with
  | [], _ => none
  | _, [] => none
  | ds, u :: _ =>
      match unitMicros u with
      | some m => some ((digitsToNat ds : Int) * m)
      | none => none

/-- Observable effects of the `/ban` command body. -/
inductive BanEffect
  | storeTempSanction (r : TempSanction)
  | saveData
  | respondSuccess
  | platformBan
  | respondError
deriving DecidableEq

/-- The `/ban` command after its permission and hierarchy checks
(moderation.py lines 483-503): with a duration that parses, it stores a
`temp_roles` record keyed by the member id with action `"ban"` and the
computed expiry, saves, and reports success — `member.ban` is not called
on this path; with no duration it calls `member.ban`; with an unparsable
duration it surfaces an error. -/
def banCommand (memberId : Nat) (guildId : Nat) (duration : Option String)
    (now : Int) : List BanEffect :=
  match duration with
  | some d =>
      match parseTime d with
      | some micros =>
          [.storeTempSanction ⟨toString memberId, "ban", guildId, now + micros⟩,
           .saveData, .respondSuccess]
      | none => [.respondError]
  | none => [.platformBan, .respondSuccess]

/-- C10: a ban with a parsable duration only records and persists a
TemporarySanction — the platform ban is never invoked on that path — and
the platform ban is invoked exactly on the no-duration path; at expiry
the scheduler deletes the stored record and attempts an unban of the
member, reversing a ban that was never applied. -/
theorem timed_ban_never_bans (mid gid : Nat) (d : String)
    (now micros : Int) (h : parseTime d = some micros) :
    banCommand mid gid (some d) now
      = [.storeTempSanction ⟨toString mid, "ban", gid, now + micros⟩,
         .saveData, .respondSuccess]
  ∧ BanEffect.platformBan ∉ banCommand mid gid (some d) now
  ∧ BanEffect.platformBan ∈ banCommand mid gid none now
  ∧ checkTempRoles (fun _ => true) (now + micros)
      [⟨toString mid, "ban", gid, now + micros⟩]
      = ([], [.unban gid (toString mid)]) := by
  have hb : banCommand mid gid (some d) now
      = [.storeTempSanction ⟨toString mid, "ban", gid, now + micros⟩,
         .saveData, .respondSuccess] := by
    show (match parseTime d with
      | some micros =>
          [BanEffect.storeTempSanction
            ⟨toString mid, "ban", gid, now + micros⟩,
           BanEffect.saveData, BanEffect.respondSuccess]
      | none => [BanEffect.respondError]) = _
    rw [h]
  refine ⟨hb, ?_, ?_, ?_⟩
  · rw [hb]
    intro hmem
    simp at hmem
  · simp [banCommand]
  · simp [checkTempRoles, sweepStep, reversalOps]

/-- Witness for C10 at duration string 7d. -/
theorem timed_ban_never_bans_witness :
    BanEffect.platformBan ∉ banCommand 1 2 (some ("7d")) 0 :=
  (timed_ban_never_bans 1 2 ("7d") 0 604800000000 (by decide)).2.1

/-- Outcome of reading and parsing one JSON document from disk. -/
inductive ParseResult (α : Type)
  | missing
  | malformed
  | ok (value : α)

/-- File-system operation that renames a file aside. -/
def isRename : FsOp → Bool
  | .rename _ _ => true
  | _ => false

/-- Loader `ModerationCog.load_data` (moderation.py lines 243-268): the four
documents are read inside one `try`; a `FileNotFoundError` or a
`JSONDecodeError` anywhere resets all four in-memory maps to the empty
default and calls `save_data`, which rewrites all four files in place.
No backup of the offending file is made on this path.  Returns the
loaded values (`none` is the empty default) and the file-system
operations performed. -/
def moderationLoadData {α β γ δ : Type} (w : ParseResult α)
    (t : ParseResult β) (a : ParseResult γ) (v : ParseResult δ) :
    (Option α × Option β × Option γ × Option δ) × List FsOp :=
  match w, t, a, v with
  | .ok wv, .ok tv, .ok av, .ok vv =>
      ((some wv, some tv, some av, some vv), [])
  | _, _, _, _ => ((none, none, none, none), moderationSaveOps)

/-- Loader `AutoModCog.load_data` (automod.py lines 28-49): a corrupted
`role_whitelist.json` is renamed to a timestamped `.bak` file by
`_backup_corrupted_file` (automod.py lines 51-59) before the map resets,
and the method always finishes with the atomic `save_data()`. -/
def automodLoadDataOps {α : Type} (r : ParseResult α) (ts : Nat) :
    List FsOp :=
  match r with
  | .malformed =>
      .rename ("data/role_whitelist.json")
        ("data/role_whitelist.json.bak." ++ toString ts) :: automodSaveDataOps
  | _ => automodSaveDataOps

/-- C6 counterexample: with a malformed violations document, moderation
`load_data` yields the empty default for the ledger and performs no
rename at all — no timestamped backup of the malformed file is created;
instead the file is immediately overwritten in place by the save. -/
theorem malformed_violations_load_creates_no_backup :
    (moderationLoadData (.ok 0) (.ok 0) (.ok 0)
      (.malformed : ParseResult Nat)).1.2.2.2 = none
  ∧ ((moderationLoadData (.ok 0) (.ok 0) (.ok 0)
      (.malformed : ParseResult Nat)).2.all (fun op => !(isRename op))) = true
  ∧ FsOp.write ("data/violations.json")
      ∈ (moderationLoadData (.ok 0) (.ok 0) (.ok 0)
          (.malformed : ParseResult Nat)).2 := by
  refine ⟨rfl, rfl, by decide⟩

/-- C6 amended: a malformed violations document resets every moderation
map (the ledger included) to the empty default without aborting, and the
immediate save rewrites all four files in place — so subsequent saves
succeed but the malformed file is overwritten, not backed up; only the
automod loader renames its corrupted documents to timestamped backups. -/
theorem malformed_load_empty_default_backup_only_in_automod :
    moderationLoadData (.ok 0) (.ok 0) (.ok 0) (.malformed : ParseResult Nat)
      = ((none, none, none, none), moderationSaveOps)
  ∧ (moderationSaveOps.all (fun op => !(isRename op))) = true
  ∧ FsOp.write ("data/violations.json") ∈ moderationSaveOps
  ∧ (∀ ts : Nat,
      FsOp.rename ("data/role_whitelist.json")
          ("data/role_whitelist.json.bak." ++ toString ts)
        ∈ automodLoadDataOps (.malformed : ParseResult Nat) ts) := by
  refine ⟨rfl, rfl, by decide, ?_⟩
  intro ts
  exact List.mem_cons_self _ _

end Disbot
